import Mathlib

/-!
Shallow embedding of the listing-automation core of the repository:
the when-made mapping and keyboard dropdown selection and the step
traces of the create-product workflow (TheBridge/EtsyFunc.py), the
ordered-strategy executor pattern, the overlay dismisser, and the
per-account browser session manager (TheYard/browser.py).
-/

namespace TheE

/-- UI labels of the when-made dropdown, in the fixed order hardcoded in
EtsyFunc._when_made_index. -/
def whenMadeOrder : List String :=
  ["Made To Order", "2020 - 2025", "2010 - 2019", "2006 - 2009", "Before 2006",
   "2000 - 2005", "1990s", "1980s", "1970s", "1960s", "1950s", "1940s",
   "1930s", "1920s", "1910s", "1900s"]

/-- EtsyFunc._map_when_made_to_ui: semantic date bucket to UI label; values
outside the dictionary pass through unchanged (dict.get default). -/
def map_when_made_to_ui (w : String) : String :=
  match w with
  | "made_to_order" => "Made To Order"
  | "2020_2025" => "2020 - 2025"
  | "before_2006" => "Before 2006"
  | "1990s" => "1990s"
  | "1980s" => "1980s"
  | "1970s" => "1970s"
  | "1960s" => "1960s"
  | "1950s" => "1950s"
  | "1940s" => "1940s"
  | "1930s" => "1930s"
  | "1920s" => "1920s"
  | "1910s" => "1910s"
  | "1900s" => "1900s"
  | other => other

/-- Position of the first occurrence of a string in a list: Python list.index,
with none standing for the ValueError case. -/
def order_index : List String → String → Option Nat
  | [], _ => none
  | x :: xs, t => if x = t then some 0 else (order_index xs t).map (fun n => n + 1)

/-- EtsyFunc._when_made_index: position of the mapped UI label in
whenMadeOrder, defaulting to 0 when the label is absent (ValueError branch). -/
def when_made_index (w : String) : Nat :=
  match order_index whenMadeOrder (map_when_made_to_ui w) with
  | some i => i
  | none => 0

theorem order_index_of_get? {l : List String} {t : String} :
    ∀ {k : Nat}, l.Nodup → l.get? k = some t → order_index l t = some k := by
  induction l with
  | nil => intro k _ h; simp at h
  | cons x xs ih =>
    intro k hnd h
    rcases List.nodup_cons.mp hnd with ⟨hx, hxs⟩
    match k with
    | 0 =>
      simp only [List.get?] at h
      injection h with h
      simp [order_index, h]
    | k + 1 =>
      simp only [List.get?] at h
      have htm : t ∈ xs := List.get?_mem h
      have hne : ¬ x = t := fun he => hx (he ▸ htm)
      simp [order_index, hne, ih hxs h]

theorem order_index_of_not_mem {l : List String} {t : String} (h : t ∉ l) :
    order_index l t = none := by
  induction l with
  | nil => rfl
  | cons x xs ih =>
    simp only [List.mem_cons, not_or] at h
    have hne : ¬ x = t := fun he => h.1 he.symm
    simp [order_index, hne, ih h.2]

theorem whenMadeOrder_nodup : whenMadeOrder.Nodup := by decide

/-- C1: every semantic bucket whose mapped UI label occurs in the fixed
whenMadeOrder sequence resolves through _map_when_made_to_ui and
_when_made_index to exactly one index, namely the position of that label. -/
theorem when_made_mapping_total (w : String) (k : Nat)
    (h : whenMadeOrder.get? k = some (map_when_made_to_ui w)) :
    when_made_index w = k ∧
      ∀ j : Nat, whenMadeOrder.get? j = some (map_when_made_to_ui w) → j = k := by
  have hk : order_index whenMadeOrder (map_when_made_to_ui w) = some k :=
    order_index_of_get? whenMadeOrder_nodup h
  refine ⟨by simp [when_made_index, hk], ?_⟩
  intro j hj
  have hj2 : order_index whenMadeOrder (map_when_made_to_ui w) = some j :=
    order_index_of_get? whenMadeOrder_nodup hj
  have := hk.symm.trans hj2
  exact (Option.some.inj this).symm

/-- Witness for C1 at the bucket 1990s, whose UI label sits at position 6. -/
theorem when_made_mapping_total_witness :
    whenMadeOrder.get? 6 = some (map_when_made_to_ui "1990s") ∧
      when_made_index "1990s" = 6 :=
  ⟨by decide, (when_made_mapping_total "1990s" 6 (by decide)).1⟩

/-- Keys pressed by the keyboard selection block of
EtsyFunc._fill_about_modal for the when-made dropdown. -/
inductive Key where
  | home
  | arrowDown
  | enter
deriving DecidableEq

/-- Keyboard presses issued by the when-made selection block in
EtsyFunc._fill_about_modal: Home, then ArrowDown once per unit of the
computed index, then Enter. -/
def when_made_key_presses (w : String) : List Key :=
  [Key.home] ++ List.replicate (when_made_index w) Key.arrowDown ++ [Key.enter]

/-- C2: when the mapped UI label sits at position k of whenMadeOrder, the
when-made selection presses ArrowDown exactly k times between Home and
Enter; when the mapped label is not in the sequence the computed index is 0,
so no ArrowDown press occurs and Enter confirms the first entry. -/
theorem when_made_keyboard_navigation (w : String) :
    (∀ k : Nat, whenMadeOrder.get? k = some (map_when_made_to_ui w) →
      when_made_key_presses w =
        [Key.home] ++ List.replicate k Key.arrowDown ++ [Key.enter] ∧
      (when_made_key_presses w).count Key.arrowDown = k) ∧
    (map_when_made_to_ui w ∉ whenMadeOrder →
      when_made_index w = 0 ∧ when_made_key_presses w = [Key.home, Key.enter]) := by
  constructor
  · intro k hk
    have hidx : when_made_index w = k := (when_made_mapping_total w k hk).1
    constructor
    · simp [when_made_key_presses, hidx]
    · simp [when_made_key_presses, hidx, List.count_append, List.count_replicate]
  · intro hnm
    have hnone : order_index whenMadeOrder (map_when_made_to_ui w) = none :=
      order_index_of_not_mem hnm
    have hidx : when_made_index w = 0 := by simp [when_made_index, hnone]
    exact ⟨hidx, by simp [when_made_key_presses, hidx]⟩

/-- Witness for C2: a label at position 3, and an unrecognized label. -/
theorem when_made_keyboard_navigation_witness :
    (whenMadeOrder.get? 3 = some (map_when_made_to_ui "2006 - 2009") ∧
      (when_made_key_presses "2006 - 2009").count Key.arrowDown = 3) ∧
    (map_when_made_to_ui "banana" ∉ whenMadeOrder ∧
      when_made_key_presses "banana" = [Key.home, Key.enter]) :=
  ⟨⟨by decide, ((when_made_keyboard_navigation "2006 - 2009").1 3 (by decide)).2⟩,
   ⟨by decide, ((when_made_keyboard_navigation "banana").2 (by decide)).2⟩⟩

/-- Ordered-strategy execution pattern of EtsyFunc (the for loop with
try, break on success, continue on exception): given the success outcomes
of the candidate strategies in priority order, returns whether some
candidate succeeded together with how many candidates were attempted. -/
def try_candidates : List Bool → Bool × Nat
  | [] => (false, 0)
  | a :: rest =>
    if a then (true, 1)
    else
      let r := try_candidates rest
      (r.1, r.2 + 1)

theorem try_candidates_fst_eq_any (strats : List Bool) :
    (try_candidates strats).1 = strats.any id := by
  induction strats with
  | nil => rfl
  | cons a rest ih =>
    by_cases ha : a = true
    · simp [try_candidates, ha]
    · have ha2 : a = false := by revert ha; cases a <;> simp
      simp [try_candidates, ha2, ih]

/-- C3: if the candidate at position i succeeds and every earlier candidate
fails, the executor returns success having attempted exactly the first
i + 1 candidates, so no later candidate is invoked. -/
theorem try_candidates_short_circuit (strats : List Bool) (i : Nat)
    (hi : i < strats.length) (hs : strats.get ⟨i, hi⟩ = true)
    (hf : ∀ j : Nat, (hj : j < strats.length) → j < i → strats.get ⟨j, hj⟩ = false) :
    try_candidates strats = (true, i + 1) := by
  induction strats generalizing i with
  | nil => exact absurd hi (Nat.not_lt_zero i)
  | cons a rest ih =>
    match i with
    | 0 =>
      simp only [List.get] at hs
      simp [try_candidates, hs]
    | i + 1 =>
      have ha : a = false := by
        have := hf 0 (Nat.succ_pos _) (Nat.succ_pos _)
        simpa using this
      have hrest :=
        ih i (Nat.lt_of_succ_lt_succ hi) hs
          (fun j hj hji => hf (j + 1) (Nat.succ_lt_succ hj) (Nat.succ_lt_succ hji))
      simp [try_candidates, ha, hrest]

/-- Witness for C3: second candidate succeeds, first fails, third never runs. -/
theorem try_candidates_short_circuit_witness :
    try_candidates [false, true, true] = (true, 2) :=
  try_candidates_short_circuit [false, true, true] 1 (by decide) (by decide)
    (fun j hj hji => by
      have hj0 : j = 0 := Nat.lt_one_iff.mp hji
      subst hj0
      rfl)

/-- Outcome of running one step of the workflow: whether it succeeded,
the diagnostic screenshots written, and the raised error tag if any. -/
structure StepOutcome where
  ok : Bool
  screenshots : List String
  error : Option String
deriving DecidableEq

/-- Diagnostic screenshot path used on step failure throughout EtsyFunc,
f-string etsy_{self.shop_key}_{step_tag}.png. -/
def screenshot_path (shop_key step_tag : String) : String :=
  "etsy_" ++ shop_key ++ "_" ++ step_tag ++ ".png"

/-- Step pattern of EtsyFunc (title fill, photo upload, description fill,
category input, and friends): try the candidates in order; if none
succeeded, take one screenshot at the tag-derived path and raise an error
naming the step; on success neither happens. -/
def run_step (shop_key step_tag : String) (strats : List Bool) : StepOutcome :=
  if (try_candidates strats).1 then
    { ok := true, screenshots := [], error := none }
  else
    { ok := false
      screenshots := [screenshot_path shop_key step_tag]
      error := some step_tag }

/-- C4: when every strategy of a step fails, the step raises a failure
naming the step tag and writes exactly one diagnostic screenshot, at the
path etsy_{shop_key}_{step_tag}.png; when some strategy succeeds, no
screenshot is written. -/
theorem run_step_diagnostics (shop_key step_tag : String) (strats : List Bool) :
    ((∀ b ∈ strats, b = false) →
      run_step shop_key step_tag strats =
        { ok := false
          screenshots := [screenshot_path shop_key step_tag]
          error := some step_tag } ∧
      (run_step shop_key step_tag strats).screenshots.length = 1) ∧
    (true ∈ strats → (run_step shop_key step_tag strats).screenshots = []) := by
  constructor
  · intro hall
    have hany : strats.any id = false := by
      rw [List.any_eq_false]
      intro x hx
      simp [hall x hx]
    have h1 : (try_candidates strats).1 = false := by
      rw [try_candidates_fst_eq_any, hany]
    refine ⟨?_, ?_⟩ <;> simp [run_step, h1]
  · intro htrue
    have hany : strats.any id = true := List.any_eq_true.mpr ⟨true, htrue, rfl⟩
    have h1 : (try_candidates strats).1 = true := by
      rw [try_candidates_fst_eq_any, hany]
    simp [run_step, h1]

/-- Witness for C4: an all-failing step writes its single tagged screenshot
and a step with a success writes none. -/
theorem run_step_diagnostics_witness :
    (run_step "myshop" "title_fill_error" [false, false] =
      { ok := false
        screenshots := ["etsy_myshop_title_fill_error.png"]
        error := some "title_fill_error" }) ∧
    (run_step "myshop" "title_fill_error" [false, true]).screenshots = [] := by
  constructor
  · exact ((run_step_diagnostics "myshop" "title_fill_error" [false, false]).1
      (by decide)).1
  · exact (run_step_diagnostics "myshop" "title_fill_error" [false, true]).2
      (by decide)

/-- State of TheYard.browser.BrowserManager: the threading lock, the
shop_key to browser-context map (contexts are numbered abstractly, a fresh
number per created context), the counter producing fresh contexts, and
whether the playwright driver process is running. -/
structure BrowserManagerState where
  lockHeld : Bool
  browsers : List (String × Nat)
  nextCtx : Nat
  playRunning : Bool
deriving DecidableEq

/-- Manager state right after BrowserManager.__init__. -/
def initManagerState : BrowserManagerState :=
  { lockHeld := false, browsers := [], nextCtx := 0, playRunning := false }

/-- Dictionary lookup on the shop_key to context map. -/
def lookupCtx : List (String × Nat) → String → Option Nat
  | [], _ => none
  | (k, c) :: rest, key => if k = key then some c else lookupCtx rest key

/-- Atomic events of a BrowserManager call, used to state that the map is
only touched while the lock is held. -/
inductive MgrEvent where
  | lockAcquire
  | lockRelease
  | mapRead (key : String)
  | mapInsert (key : String)
  | mapRemove (key : String)
deriving DecidableEq

/-- Checks that every map access in the event list happens at positive lock
depth, starting from the given depth. -/
def guardedFrom : Nat → List MgrEvent → Bool
  | _, [] => true
  | d, MgrEvent.lockAcquire :: es => guardedFrom (d + 1) es
  | d, MgrEvent.lockRelease :: es => guardedFrom (d - 1) es
  | d, MgrEvent.mapRead _ :: es => d != 0 && guardedFrom d es
  | d, MgrEvent.mapInsert _ :: es => d != 0 && guardedFrom d es
  | d, MgrEvent.mapRemove _ :: es => d != 0 && guardedFrom d es

/-- Every map access in the event list happens while the lock is held. -/
def lockGuarded (es : List MgrEvent) : Bool := guardedFrom 0 es

/-- TheYard launch_persistent_context: under the lock, return the existing
context for an open key, else start the driver if needed and launch a
fresh persistent context, register it, and return it. Calling with the
non-reentrant lock already held blocks forever, modelled as none. -/
def launch_persistent_context (st : BrowserManagerState) (key : String) :
    Option (Nat × BrowserManagerState × List MgrEvent) :=
  match st.lockHeld with
  | true => none
  | false =>
    match lookupCtx st.browsers key with
    | some ctx =>
        some (ctx, st,
          [MgrEvent.lockAcquire, MgrEvent.mapRead key, MgrEvent.lockRelease])
    | none =>
        some (st.nextCtx,
          { lockHeld := false
            browsers := st.browsers ++ [(key, st.nextCtx)]
            nextCtx := st.nextCtx + 1
            playRunning := true },
          [MgrEvent.lockAcquire, MgrEvent.mapRead key, MgrEvent.mapInsert key,
            MgrEvent.lockRelease])

/-- TheYard close_context: under the lock, pop the context of the key and
close it, stopping the driver when no context remains. Calling with the
non-reentrant lock already held blocks forever, modelled as none. -/
def close_context (st : BrowserManagerState) (key : String) :
    Option (BrowserManagerState × List MgrEvent) :=
  match st.lockHeld with
  | true => none
  | false =>
    let browsers2 := st.browsers.filter (fun p => p.1 != key)
    some ({ lockHeld := false
            browsers := browsers2
            nextCtx := st.nextCtx
            playRunning := if browsers2.isEmpty then false else st.playRunning },
      [MgrEvent.lockAcquire, MgrEvent.mapRead key, MgrEvent.mapRemove key,
        MgrEvent.lockRelease])

/-- Loop body of TheYard close_all: close_context for every open key, run
while close_all itself is holding the manager lock. -/
def close_all_loop : BrowserManagerState → List String → Option BrowserManagerState
  | st, [] => some st
  | st, k :: rest =>
    match close_context st k with
    | none => none
    | some (st2, _) => close_all_loop st2 rest

/-- TheYard close_all: take the manager lock, then call close_context for
every open key while still holding it. -/
def close_all (st : BrowserManagerState) : Option BrowserManagerState :=
  match st.lockHeld with
  | true => none
  | false =>
    match close_all_loop { st with lockHeld := true } (st.browsers.map Prod.fst) with
    | none => none
    | some st2 => some { st2 with lockHeld := false }

/-- Well-formedness of the manager state: distinct keys map to distinct
contexts and every registered context number is below the fresh counter. -/
def CtxInvariant (st : BrowserManagerState) : Prop :=
  st.browsers.Pairwise (fun p q => p.1 ≠ q.1 ∧ p.2 ≠ q.2) ∧
    ∀ p ∈ st.browsers, p.2 < st.nextCtx

theorem lookupCtx_mem {l : List (String × Nat)} {key : String} {c : Nat}
    (h : lookupCtx l key = some c) : (key, c) ∈ l := by
  induction l with
  | nil => simp [lookupCtx] at h
  | cons p rest ih =>
    obtain ⟨k, v⟩ := p
    by_cases hk : k = key
    · subst hk
      simp [lookupCtx] at h
      subst h
      exact List.mem_cons_self _ _
    · simp [lookupCtx, hk] at h
      exact List.mem_cons_of_mem _ (ih h)

theorem lookupCtx_append_self {l : List (String × Nat)} {key : String} (c : Nat)
    (h : lookupCtx l key = none) :
    lookupCtx (l ++ [(key, c)]) key = some c := by
  induction l with
  | nil => simp [lookupCtx]
  | cons p rest ih =>
    obtain ⟨k, v⟩ := p
    by_cases hk : k = key
    · simp [lookupCtx, hk] at h
    · simp only [lookupCtx, if_neg hk] at h
      simp only [List.cons_append, lookupCtx, if_neg hk]
      exact ih h

theorem lookupCtx_append_ne {l : List (String × Nat)} {k1 k2 : String} (c : Nat)
    (h : k1 ≠ k2) :
    lookupCtx (l ++ [(k1, c)]) k2 = lookupCtx l k2 := by
  induction l with
  | nil => simp [lookupCtx, h]
  | cons p rest ih =>
    obtain ⟨k, v⟩ := p
    by_cases hk : k = k2 <;> simp [lookupCtx, hk, ih]

theorem lookupCtx_inj {l : List (String × Nat)}
    (hpw : l.Pairwise (fun p q => p.1 ≠ q.1 ∧ p.2 ≠ q.2))
    {k1 k2 : String} {c1 c2 : Nat}
    (h1 : lookupCtx l k1 = some c1) (h2 : lookupCtx l k2 = some c2)
    (hne : k1 ≠ k2) : c1 ≠ c2 := by
  induction l with
  | nil => simp [lookupCtx] at h1
  | cons p rest ih =>
    obtain ⟨k, v⟩ := p
    rw [List.pairwise_cons] at hpw
    by_cases e1 : k = k1
    · have hk2 : ¬ k = k2 := fun h => hne (e1.symm.trans h)
      simp [lookupCtx, e1] at h1
      simp [lookupCtx, hk2] at h2
      have hm := hpw.1 _ (lookupCtx_mem h2)
      exact h1 ▸ hm.2
    · by_cases e2 : k = k2
      · simp [lookupCtx, e2] at h2
        simp [lookupCtx, e1] at h1
        have hm := hpw.1 _ (lookupCtx_mem h1)
        exact fun hc => (h2 ▸ hm.2) (hc.symm)
      · simp [lookupCtx, e1] at h1
        simp [lookupCtx, e2] at h2
        exact ih hpw.2 h1 h2

theorem lookupCtx_filter_self (l : List (String × Nat)) (key : String) :
    lookupCtx (l.filter (fun p => p.1 != key)) key = none := by
  induction l with
  | nil => rfl
  | cons p rest ih =>
    obtain ⟨k, v⟩ := p
    by_cases hk : k = key
    · simp [List.filter_cons, hk, ih]
    · simp [List.filter_cons, hk, lookupCtx, ih]

/-- C5: the session manager keeps at most one live browser context per
account key: re-acquiring an already open key returns the existing context
with the session map unchanged, acquiring two different keys yields two
distinct contexts, and both calls touch the key-to-session map only while
holding the mutual-exclusion lock. -/
theorem launch_persistent_context_memoized (st : BrowserManagerState)
    (k1 k2 : String) {c1 c2 : Nat} {st1 st2 : BrowserManagerState}
    {e1 e2 : List MgrEvent}
    (hlock : st.lockHeld = false) (hinv : CtxInvariant st)
    (h1 : launch_persistent_context st k1 = some (c1, st1, e1))
    (h2 : launch_persistent_context st1 k2 = some (c2, st2, e2)) :
    (k2 = k1 → c2 = c1 ∧ st2 = st1) ∧ (k1 ≠ k2 → c1 ≠ c2) ∧
      lockGuarded e1 = true ∧ lockGuarded e2 = true := by
  obtain ⟨hpw, hlt⟩ := hinv
  unfold launch_persistent_context at h1
  rw [hlock] at h1
  cases hl1 : lookupCtx st.browsers k1 with
  | some c =>
    rw [hl1] at h1
    simp only [Option.some.injEq, Prod.mk.injEq] at h1
    obtain ⟨hc1, hst1, he1⟩ := h1
    subst hc1
    subst hst1
    subst he1
    unfold launch_persistent_context at h2
    rw [hlock] at h2
    cases hl2 : lookupCtx st.browsers k2 with
    | some d =>
      rw [hl2] at h2
      simp only [Option.some.injEq, Prod.mk.injEq] at h2
      obtain ⟨hc2, hst2, he2⟩ := h2
      subst hc2
      subst hst2
      subst he2
      refine ⟨?_, ?_, rfl, rfl⟩
      · intro he
        subst he
        exact ⟨(Option.some.inj (hl1.symm.trans hl2)).symm, rfl⟩
      · intro hne
        exact lookupCtx_inj hpw hl1 hl2 hne
    | none =>
      rw [hl2] at h2
      simp only [Option.some.injEq, Prod.mk.injEq] at h2
      obtain ⟨hc2, hst2, he2⟩ := h2
      subst hc2
      subst hst2
      subst he2
      refine ⟨?_, ?_, rfl, rfl⟩
      · intro he
        subst he
        rw [hl1] at hl2
        exact Option.noConfusion hl2
      · intro hne
        exact Nat.ne_of_lt (hlt _ (lookupCtx_mem hl1))
  | none =>
    rw [hl1] at h1
    simp only [Option.some.injEq, Prod.mk.injEq] at h1
    obtain ⟨hc1, hst1, he1⟩ := h1
    subst hc1
    subst hst1
    subst he1
    unfold launch_persistent_context at h2
    simp only [] at h2
    by_cases hk : k2 = k1
    · subst hk
      rw [lookupCtx_append_self _ hl1] at h2
      simp only [Option.some.injEq, Prod.mk.injEq] at h2
      obtain ⟨hc2, hst2, he2⟩ := h2
      subst hc2
      subst hst2
      subst he2
      exact ⟨fun _ => ⟨rfl, rfl⟩, fun hne => absurd rfl hne, rfl, rfl⟩
    · rw [lookupCtx_append_ne _ (fun h => hk h.symm)] at h2
      cases hl2 : lookupCtx st.browsers k2 with
      | some d =>
        rw [hl2] at h2
        simp only [Option.some.injEq, Prod.mk.injEq] at h2
        obtain ⟨hc2, hst2, he2⟩ := h2
        subst hc2
        subst hst2
        subst he2
        refine ⟨fun he => absurd he hk, fun hne => ?_, rfl, rfl⟩
        exact (Nat.ne_of_lt (hlt _ (lookupCtx_mem hl2))).symm
      | none =>
        rw [hl2] at h2
        simp only [Option.some.injEq, Prod.mk.injEq] at h2
        obtain ⟨hc2, hst2, he2⟩ := h2
        subst hc2
        subst hst2
        subst he2
        refine ⟨fun he => absurd he hk, fun hne => ?_, rfl, rfl⟩
        exact Nat.ne_of_lt (Nat.lt_succ_self _)

/-- Witness for C5: from a fresh manager, acquiring keys a then b yields
the distinct contexts 0 and 1, and the first call touches the map only
under the lock. -/
theorem launch_persistent_context_memoized_witness :
    ("a" ≠ "b" → (0 : Nat) ≠ 1) ∧
      lockGuarded [MgrEvent.lockAcquire, MgrEvent.mapRead "a",
        MgrEvent.mapInsert "a", MgrEvent.lockRelease] = true := by
  have h := launch_persistent_context_memoized initManagerState "a" "b" rfl
    ⟨List.Pairwise.nil, by simp [initManagerState]⟩ rfl rfl
  exact ⟨h.2.1, h.2.2.1⟩

/-- C6: close_all from a state with at least one open session never
returns: it takes the non-reentrant manager lock and then calls
close_context, which blocks acquiring the same lock again; the blocked
call is modelled by the none result. -/
theorem close_all_self_deadlock (st : BrowserManagerState)
    (hlock : st.lockHeld = false) (hne : st.browsers ≠ []) :
    close_all st = none := by
  unfold close_all
  rw [hlock]
  cases hb : st.browsers with
  | nil => exact absurd hb hne
  | cons p rest =>
    simp [close_all_loop, close_context]

/-- Witness for C6: close_all deadlocks on a manager with one open shop. -/
theorem close_all_self_deadlock_witness :
    close_all ⟨false, [("shop", 0)], 1, true⟩ = none :=
  close_all_self_deadlock ⟨false, [("shop", 0)], 1, true⟩ rfl (by decide)

/-- Session-lifecycle effect of one EtsyFunc.create_product run: acquire
the context for the shop key via launch_persistent_context, run the UI
workflow on it, and finish with the close_context call at the end of the
method. -/
def create_product_sessions (st : BrowserManagerState) (key : String) :
    Option BrowserManagerState :=
  match launch_persistent_context st key with
  | none => none
  | some (_, st1, _) =>
    match close_context st1 key with
    | none => none
    | some (st2, _) => some st2

theorem close_context_removes (st : BrowserManagerState) (key : String)
    (hlock : st.lockHeld = false) :
    ∃ st2 ev, close_context st key = some (st2, ev) ∧
      lookupCtx st2.browsers key = none ∧ st2.lockHeld = false := by
  unfold close_context
  rw [hlock]
  exact ⟨_, _, rfl, lookupCtx_filter_self st.browsers key, rfl⟩

/-- C7 counterexample: running create_product from a fresh manager for
shop1 completes, and afterwards shop1 is no longer registered in the
session map, against the claim that a completed workflow run leaves that
key open and registered. -/
theorem create_product_leaves_session_open_counterexample :
    (create_product_sessions initManagerState "shop1").map
      (fun stEnd => lookupCtx stEnd.browsers "shop1") = some none := by
  rfl

/-- C7 amended: the session for a key is reused or created on entry to
create_product, but the method ends with an explicit close_context call
for its key, so a completed create_product run leaves the key
unregistered in the session map rather than open. -/
theorem create_product_closes_session (st : BrowserManagerState) (key : String)
    (hlock : st.lockHeld = false) :
    ∃ st2 : BrowserManagerState, create_product_sessions st key = some st2 ∧
      lookupCtx st2.browsers key = none ∧ st2.lockHeld = false := by
  unfold create_product_sessions
  unfold launch_persistent_context
  rw [hlock]
  cases hl : lookupCtx st.browsers key with
  | some c =>
    obtain ⟨st2, ev, hcc, hl2, hlk⟩ := close_context_removes st key hlock
    refine ⟨st2, ?_, hl2, hlk⟩
    simp only [hcc]
  | none =>
    obtain ⟨st2, ev, hcc, hl2, hlk⟩ := close_context_removes
      ⟨false, st.browsers ++ [(key, st.nextCtx)], st.nextCtx + 1, true⟩ key rfl
    refine ⟨st2, ?_, hl2, hlk⟩
    simp only [hcc]

/-- Witness for the amended C7 at a fresh manager and the key shop. -/
theorem create_product_closes_session_witness :
    initManagerState.lockHeld = false ∧
      ∃ st2 : BrowserManagerState,
        create_product_sessions initManagerState "shop" = some st2 ∧
          lookupCtx st2.browsers "shop" = none ∧ st2.lockHeld = false :=
  ⟨rfl, create_product_closes_session initManagerState "shop" rfl⟩

/-- Data model of TheBridge/EtsyFunc.py ProductInput; optional fields use
none for the Python None default, price stands in for the float field. -/
structure ProductInput where
  category_query : String
  title : Option String := none
  description : Option String := none
  price : Option Rat := none
  quantity : Option Int := none
  who_made : Option String := none
  when_made : Option String := none
  type : Option String := none
  is_supply : Option Bool := none
  tags : List String := []
  materials : List String := []
  styles : List String := []
  images : List String := []
  shipping_profile : Option String := none

/-- Python truthiness of an Optional[str] field: present and non-empty. -/
def truthyStr : Option String → Bool
  | none => false
  | some s => s != ""

/-- States of the create_product workflow, one per UI step. -/
inductive WStep where
  | categorySearch
  | categorySelect
  | categoryContinue
  | locateAboutModal
  | aboutWhoMade
  | aboutWhatIsIt
  | aboutWhenMade
  | aboutContinue
  | overlayDismiss
  | titleFill
  | photoUpload
  | descriptionFill
deriving DecidableEq

/-- The who_made_map dictionary inside EtsyFunc._fill_about_modal. -/
def who_made_map : String → Option String
  | "i_did" => some "I did"
  | "someone_else" => some "Another company or person"
  | "collective" => some "A member of my shop"
  | _ => none

/-- Radio label chosen in the What-is-it section of _fill_about_modal: the
supply label only when is_supply is truthy (Python if product.is_supply),
otherwise the finished-product label; there is no skip condition around
this selection. -/
def what_is_it_label (p : ProductInput) : String :=
  if p.is_supply = some true then "A supply or tool to make things"
  else "A finished product"

/-- Who-made radio selection of _fill_about_modal: it runs when who_made
is truthy and its value maps to a known radio label; an unknown value
leaves label None and the click is skipped. -/
def who_made_steps (w : Option String) : List WStep :=
  match w with
  | none => []
  | some s =>
    if s == "" then []
    else
      match who_made_map s with
      | some _ => [WStep.aboutWhoMade]
      | none => []

/-- Steps executed by EtsyFunc._fill_about_modal on a successful run:
locate the modal, the guarded who-made click, the unconditional
what-is-it click, the when-made dropdown when when_made is truthy, then
Continue and the unconditional overlay dismissal. -/
def fill_about_modal_trace (p : ProductInput) : List WStep :=
  [WStep.locateAboutModal]
  ++ who_made_steps p.who_made
  ++ [WStep.aboutWhatIsIt]
  ++ (if truthyStr p.when_made then [WStep.aboutWhenMade] else [])
  ++ [WStep.aboutContinue, WStep.overlayDismiss]

/-- Steps executed by EtsyFunc._fill_title_desc_photos on a successful
run: the title fill when title is truthy, the photo upload when the
images list is non-empty, the description fill when description is
truthy, in the fixed source order. -/
def fill_title_desc_photos_trace (p : ProductInput) : List WStep :=
  (if truthyStr p.title then [WStep.titleFill] else [])
  ++ (if p.images.isEmpty then [] else [WStep.photoUpload])
  ++ (if truthyStr p.description then [WStep.descriptionFill] else [])

/-- Steps of EtsyFunc.create_product on a successful run: category
search, first-suggestion selection and Continue, then the about modal,
then title, photos and description. -/
def create_product_trace (p : ProductInput) : List WStep :=
  [WStep.categorySearch, WStep.categorySelect, WStep.categoryContinue]
  ++ fill_about_modal_trace p ++ fill_title_desc_photos_trace p

/-- Order of all workflow states when nothing is skipped. -/
def fullStepOrder : List WStep :=
  [WStep.categorySearch, WStep.categorySelect, WStep.categoryContinue,
   WStep.locateAboutModal, WStep.aboutWhoMade, WStep.aboutWhatIsIt,
   WStep.aboutWhenMade, WStep.aboutContinue, WStep.overlayDismiss,
   WStep.titleFill, WStep.photoUpload, WStep.descriptionFill]

theorem truthyStr_eq_false_iff (w : Option String) :
    truthyStr w = false ↔ (w = none ∨ w = some "") := by
  cases w with
  | none => simp [truthyStr]
  | some s => simp [truthyStr]

theorem isEmpty_eq_false_iff_ne_nil (l : List String) :
    l.isEmpty = false ↔ l ≠ [] := by
  cases l <;> simp

theorem who_made_steps_eq (w : Option String) :
    who_made_steps w = [] ∨ who_made_steps w = [WStep.aboutWhoMade] := by
  cases w with
  | none => exact Or.inl rfl
  | some s =>
    cases hb : (s == "") with
    | true => exact Or.inl (by simp [who_made_steps, hb])
    | false =>
      cases hm : who_made_map s with
      | some l => exact Or.inr (by simp [who_made_steps, hb, hm])
      | none => exact Or.inl (by simp [who_made_steps, hb, hm])

theorem who_made_steps_sublist (w : Option String) :
    List.Sublist (who_made_steps w) [WStep.aboutWhoMade] := by
  rcases who_made_steps_eq w with he | he
  · rw [he]
    exact List.nil_sublist _
  · rw [he]

theorem if_singleton_sublist (c : Bool) (a : WStep) :
    List.Sublist (if c then [a] else []) [a] := by
  cases c <;> simp

theorem if_empty_singleton_sublist (c : Bool) (a : WStep) :
    List.Sublist (if c then [] else [a]) [a] := by
  cases c <;> simp

/-- C8 counterexample: with when_made present but equal to the empty
string, the field is not absent yet the AboutWhenMade step is still
skipped (Python truthiness treats the empty string like None), so the
skip is not characterized exactly by absence. -/
theorem when_made_skip_counterexample :
    ({ category_query := "plate", when_made := some "" } : ProductInput).when_made
        ≠ none ∧
      WStep.aboutWhenMade ∉
        create_product_trace { category_query := "plate", when_made := some "" } := by
  constructor
  · simp
  · decide

/-- C8 amended: the workflow runs the AboutWhenMade dropdown exactly when
when_made is present and non-empty (it is skipped when the field is
absent or the empty string), runs PhotoUpload exactly when the images
list is non-empty, and in all cases the executed steps form a
subsequence of the fixed workflow order with the surrounding
AboutWhatIsIt and AboutContinue steps always present. -/
theorem workflow_skip_conditions (p : ProductInput) :
    (WStep.aboutWhenMade ∉ create_product_trace p ↔
      (p.when_made = none ∨ p.when_made = some "")) ∧
    (WStep.photoUpload ∈ create_product_trace p ↔ p.images ≠ []) ∧
    List.Sublist (create_product_trace p) fullStepOrder ∧
    WStep.aboutWhatIsIt ∈ create_product_trace p ∧
    WStep.aboutContinue ∈ create_product_trace p := by
  have h3 : List.Sublist (create_product_trace p) fullStepOrder := by
    have hs := List.Sublist.append
      (List.Sublist.refl [WStep.categorySearch, WStep.categorySelect,
        WStep.categoryContinue, WStep.locateAboutModal])
      (List.Sublist.append (who_made_steps_sublist p.who_made)
        (List.Sublist.append (List.Sublist.refl [WStep.aboutWhatIsIt])
          (List.Sublist.append
            (if_singleton_sublist (truthyStr p.when_made) WStep.aboutWhenMade)
            (List.Sublist.append
              (List.Sublist.refl [WStep.aboutContinue, WStep.overlayDismiss])
              (List.Sublist.append
                (if_singleton_sublist (truthyStr p.title) WStep.titleFill)
                (List.Sublist.append
                  (if_empty_singleton_sublist p.images.isEmpty WStep.photoUpload)
                  (if_singleton_sublist (truthyStr p.description)
                    WStep.descriptionFill)))))))
    simpa [create_product_trace, fill_about_modal_trace,
      fill_title_desc_photos_trace, fullStepOrder] using hs
  refine ⟨?_, ?_, h3, ?_, ?_⟩ <;>
    rcases who_made_steps_eq p.who_made with he | he <;>
      cases hw : truthyStr p.when_made <;>
        cases hi : p.images.isEmpty <;>
          cases ht : truthyStr p.title <;>
            cases hd : truthyStr p.description <;>
              simp [create_product_trace, fill_about_modal_trace,
                fill_title_desc_photos_trace, he, hw, hi, ht, hd,
                ← truthyStr_eq_false_iff, ← isEmpty_eq_false_iff_ne_nil]

/-- Witness for the amended C8: a product with a non-empty when_made and
one image runs both steps; a bare product runs neither. -/
theorem workflow_skip_conditions_witness :
    (WStep.aboutWhenMade ∉ create_product_trace { category_query := "plate" } ↔
      (({ category_query := "plate" } : ProductInput).when_made = none ∨
        ({ category_query := "plate" } : ProductInput).when_made = some "")) ∧
      (WStep.photoUpload ∈
          create_product_trace { category_query := "plate", images := ["a.jpg"] } ↔
        ({ category_query := "plate", images := ["a.jpg"] } : ProductInput).images
          ≠ []) :=
  ⟨(workflow_skip_conditions { category_query := "plate" }).1,
   (workflow_skip_conditions { category_query := "plate", images := ["a.jpg"] }).2.1⟩

/-- C10: beyond the two spec-listed skips, TitleFill is skipped when
title is absent, DescriptionFill when description is absent, and the
AboutWhoMade selection when who_made is absent; the AboutWhatIsIt
selection is never skipped and selects the finished-product option
whenever is_supply is not true, including when it is None. -/
theorem workflow_additional_skips (p : ProductInput) :
    (p.title = none → WStep.titleFill ∉ create_product_trace p) ∧
    (p.description = none → WStep.descriptionFill ∉ create_product_trace p) ∧
    (p.who_made = none → WStep.aboutWhoMade ∉ create_product_trace p) ∧
    WStep.aboutWhatIsIt ∈ create_product_trace p ∧
    (p.is_supply ≠ some true → what_is_it_label p = "A finished product") := by
  refine ⟨?_, ?_, ?_, ?_, ?_⟩
  · intro h0
    have ht : truthyStr p.title = false := by rw [h0]; rfl
    rcases who_made_steps_eq p.who_made with he | he <;>
      cases hw : truthyStr p.when_made <;>
        cases hi : p.images.isEmpty <;>
          cases hd : truthyStr p.description <;>
            simp [create_product_trace, fill_about_modal_trace,
              fill_title_desc_photos_trace, he, hw, hi, hd, ht]
  · intro h0
    have hd : truthyStr p.description = false := by rw [h0]; rfl
    rcases who_made_steps_eq p.who_made with he | he <;>
      cases hw : truthyStr p.when_made <;>
        cases hi : p.images.isEmpty <;>
          cases ht : truthyStr p.title <;>
            simp [create_product_trace, fill_about_modal_trace,
              fill_title_desc_photos_trace, he, hw, hi, ht, hd]
  · intro h0
    have he : who_made_steps p.who_made = [] := by rw [h0]; rfl
    cases hw : truthyStr p.when_made <;>
      cases hi : p.images.isEmpty <;>
        cases ht : truthyStr p.title <;>
          cases hd : truthyStr p.description <;>
            simp [create_product_trace, fill_about_modal_trace,
              fill_title_desc_photos_trace, he, hw, hi, ht, hd]
  · rcases who_made_steps_eq p.who_made with he | he <;>
      cases hw : truthyStr p.when_made <;>
        cases hi : p.images.isEmpty <;>
          cases ht : truthyStr p.title <;>
            cases hd : truthyStr p.description <;>
              simp [create_product_trace, fill_about_modal_trace,
                fill_title_desc_photos_trace, he, hw, hi, ht, hd]
  · intro h0
    simp [what_is_it_label, h0]

/-- Witness for C10 at a minimal product with only a category query. -/
theorem workflow_additional_skips_witness :
    WStep.titleFill ∉ create_product_trace { category_query := "plate" } ∧
      WStep.aboutWhatIsIt ∈ create_product_trace { category_query := "plate" } ∧
      what_is_it_label { category_query := "plate" } = "A finished product" := by
  have h := workflow_additional_skips { category_query := "plate" }
  exact ⟨h.1 rfl, h.2.2.2.1, h.2.2.2.2 (by simp)⟩

/-- Scroll and overflow component of the page state touched by the
script in EtsyFunc._restore_scroll. -/
structure ScrollState where
  htmlOverflow : String
  bodyOverflow : String
  htmlPosition : Option String
  bodyPosition : Option String
  htmlClasses : List String
  bodyClasses : List String
  scrollX : Nat
  scrollY : Nat
deriving DecidableEq

/-- Page state seen by the overlay dismisser: the number of visible
dialogs plus the scroll and overflow state. -/
structure PageState where
  dialogs : Nat
  scroll : ScrollState
deriving DecidableEq

/-- Class names stripped from html and body by the scroll-restoring
script. -/
def scrollLockClasses : List String :=
  ["no-scroll", "wt-no-scroll", "overlay-lock", "wt-overlay-open"]

/-- EtsyFunc._restore_scroll: set html and body overflow to auto, drop
their position properties, remove the scroll-lock classes, and scroll
back to the origin. -/
def restore_scroll (s : PageState) : PageState :=
  { s with scroll :=
    { htmlOverflow := "auto"
      bodyOverflow := "auto"
      htmlPosition := none
      bodyPosition := none
      htmlClasses := s.scroll.htmlClasses.filter
        (fun c => !(scrollLockClasses.contains c))
      bodyClasses := s.scroll.bodyClasses.filter
        (fun c => !(scrollLockClasses.contains c))
      scrollX := 0
      scrollY := 0 } }

/-- Escape-press loop of EtsyFunc._dismiss_overlays: up to four rounds,
stopping early once no visible dialog remains, otherwise pressing
Escape, whose environment-dependent effect on the dialog count is the
function esc. -/
def dismiss_loop (esc : Nat → Nat) : Nat → Nat → Nat
  | 0, d => d
  | fuel + 1, d => if d = 0 then d else dismiss_loop esc fuel (esc d)

/-- EtsyFunc._dismiss_overlays: run the bounded Escape loop, then restore
the scroll state unconditionally. The embedding is a total function: the
source wraps every primitive in try/except, so the dismisser never
raises. -/
def dismiss_overlays (esc : Nat → Nat) (s : PageState) : PageState :=
  restore_scroll { s with dialogs := dismiss_loop esc 4 s.dialogs }

/-- C9: the overlay dismisser never fails and always leaves the scroll
and overflow state in the same normalized form (overflow auto, no
position property, lock classes removed, scroll at the origin), so
invoking it twice in succession produces the same final scroll and
overflow state as invoking it once, whatever Escape does to the
dialogs. -/
theorem dismiss_overlays_idempotent (esc : Nat → Nat) (s : PageState) :
    (dismiss_overlays esc (dismiss_overlays esc s)).scroll =
      (dismiss_overlays esc s).scroll ∧
    (dismiss_overlays esc s).scroll.htmlOverflow = "auto" ∧
    (dismiss_overlays esc s).scroll.bodyOverflow = "auto" ∧
    (dismiss_overlays esc s).scroll.htmlPosition = none ∧
    (dismiss_overlays esc s).scroll.bodyPosition = none ∧
    (dismiss_overlays esc s).scroll.scrollX = 0 ∧
    (dismiss_overlays esc s).scroll.scrollY = 0 := by
  refine ⟨?_, rfl, rfl, rfl, rfl, rfl, rfl⟩
  simp [dismiss_overlays, restore_scroll, List.filter_filter, Bool.and_self]

end TheE
